import Mathlib

/-!
Shallow embedding of the exam-session and grading core of the exam-ace
repository (React/Supabase).  The definitions below are transcribed from:

* `src/pages/student/TakeExam.tsx` — `initExam`, the countdown seed,
  `saveAnswer`, `handleSubmit` (finalize + auto-grading);
* `src/pages/student/StudentExams.tsx` — `getStatus` and the
  `StudentResults` publication gate;
* `src/pages/admin/AdminTeachers.tsx` — `SubmissionDetail.fetchData`
  (student access check), `handleGradeUpdate`, `saveGrading`;
* `supabase/migrations/20260116152426_….sql` — table shapes, column
  defaults and the UNIQUE constraints on `exam_submissions (exam_id,
  student_id)` and `student_answers (submission_id, question_id)`.

Timestamps are modelled as integer seconds.  Database `NULL`able columns
are modelled with `Option`.
-/

namespace ExamAce

/-- `questions.question_type` — CHECK (question_type IN ('mcq', 'short_answer')). -/
inductive QType where
  | mcq
  | short_answer
deriving DecidableEq, Repr

/-- A row of `public.questions` (the fields the session core reads). -/
structure Question where
  id : Nat
  questionType : QType
  correctAnswer : String
  marks : Int
  orderIndex : Nat
deriving DecidableEq, Repr

/-- A row of `public.exams` (the fields the session core reads). -/
structure Exam where
  id : Nat
  durationMinutes : Int
  startTime : Int
  endTime : Int
  isPublished : Bool
  resultsPublished : Bool
deriving DecidableEq, Repr

/-- A row of `public.exam_submissions`. -/
structure Submission where
  id : Nat
  examId : Nat
  studentId : Nat
  startedAt : Int
  submittedAt : Option Int
  totalScore : Option Int
  maxScore : Option Int
  isGraded : Bool
deriving DecidableEq, Repr

/-- A row of `public.student_answers` (sans the surrogate uuid). -/
structure AnswerRow where
  submissionId : Nat
  questionId : Nat
  answer : String
  isCorrect : Option Bool
  marksObtained : Option Int
  feedback : Option String
deriving DecidableEq, Repr

/-- JavaScript `String.prototype.toLowerCase` (simple case mapping,
per character). -/
def jsLower (s : String) : String :=
  ⟨s.data.map Char.toLower⟩

/-- JavaScript `String.prototype.trim`: strip whitespace from both
ends. -/
def jsTrim (s : String) : String :=
  ⟨((s.data.dropWhile Char.isWhitespace).reverse.dropWhile Char.isWhitespace).reverse⟩

/-- `studentAns.toLowerCase().trim()` — the normalisation `handleSubmit`
applies to both the student answer and the recorded correct answer. -/
def jsNormalize (s : String) : String :=
  jsTrim (jsLower s)

/-- `answers[q.id] || ''` — the in-memory answer for a question,
defaulting to the empty string when the student never answered it. -/
def answerOf (answers : List (Nat × String)) (qid : Nat) : String :=
  (answers.lookup qid).getD ""

/-- The per-question correctness test of `handleSubmit`:
`q.question_type === 'mcq' && studentAns.toLowerCase().trim() ===
q.correct_answer.toLowerCase().trim()`. -/
def isCorrectAns (q : Question) (studentAns : String) : Bool :=
  q.questionType == QType.mcq && jsNormalize studentAns == jsNormalize q.correctAnswer

/-- The `student_answers` row `handleSubmit` upserts for one question:
`{ submission_id, question_id, answer: studentAns,
   is_correct: q.question_type === 'mcq' ? isCorrect : null,
   marks_obtained: q.question_type === 'mcq' ? (isCorrect ? q.marks : 0) : null }`. -/
def gradeRow (subId : Nat) (q : Question) (studentAns : String) : AnswerRow :=
  { submissionId := subId
    questionId := q.id
    answer := studentAns
    isCorrect := if q.questionType == QType.mcq then some (isCorrectAns q studentAns) else none
    marksObtained :=
      if q.questionType == QType.mcq then some (if isCorrectAns q studentAns then q.marks else 0)
      else none
    feedback := none }

/-- `totalScore` accumulated by `handleSubmit`'s loop
(`if (isCorrect) totalScore += q.marks`). -/
def finalTotalScore (questions : List Question) (answers : List (Nat × String)) : Int :=
  (questions.map (fun q => if isCorrectAns q (answerOf answers q.id) then q.marks else 0)).sum

/-- `maxScore` accumulated by `handleSubmit`'s loop (`maxScore += q.marks`). -/
def finalMaxScore (questions : List Question) : Int :=
  (questions.map (fun q => q.marks)).sum

/-- `questionsWithAnswers?.every(q => q.question_type === 'mcq') || false`. -/
def allMcq (questions : List Question) : Bool :=
  questions.all (fun q => q.questionType == QType.mcq)

/-- `handleSubmit` of `TakeExam.tsx`.  `submitting` is the component's
client-side re-entry flag (`if (!submissionId || submitting) return`).
Returns the submission as written by the unconditional
`exam_submissions.update({submitted_at, total_score, max_score,
is_graded}).eq('id', submissionId)` together with the `student_answers`
rows upserted for every question of the exam.  There is no condition on
the prior `submitted_at` in the update. -/
def handleSubmit (submitting : Bool) (questions : List Question)
    (answers : List (Nat × String)) (sub : Submission) (now : Int) :
    Submission × List AnswerRow :=
  if submitting then (sub, [])
  else
    ({ sub with
        submittedAt := some now
        totalScore := some (finalTotalScore questions answers)
        maxScore := some (finalMaxScore questions)
        isGraded := allMcq questions },
     questions.map (fun q => gradeRow sub.id q (answerOf answers q.id)))

/-- The countdown seed of `initExam`:
`Math.max(0, examData.duration_minutes * 60 - elapsed)` with
`elapsed = now - started_at` in seconds.  No cap by the exam's
`end_time` appears in the code. -/
def initRemaining (e : Exam) (startedAt now : Int) : Int :=
  max 0 (e.durationMinutes * 60 - (now - startedAt))

/-- The remaining-time formula as the specification words it:
`min(max(0, durationMinutes*60 − (now − startedAt)), endTime − now)`.
Stated here only to be compared with `initRemaining`. -/
def specRemaining (e : Exam) (startedAt now : Int) : Int :=
  min (max 0 (e.durationMinutes * 60 - (now - startedAt))) (e.endTime - now)

/-- Row-level security "Students can view published exams"
(`USING (is_published = true …)`): the `exams` select in `initExam`
returns no row to a student when the exam is unpublished. -/
def visibleExamForStudent (e : Exam) : Option Exam :=
  if e.isPublished then some e else none

/-- The fresh `exam_submissions` row inserted by `initExam`
(`insert({ exam_id, student_id })`; `started_at` defaults to `now()`,
`is_graded` to false, the score columns to NULL). -/
def newSubmission (freshId examId studentId : Nat) (now : Int) : Submission :=
  { id := freshId, examId := examId, studentId := studentId, startedAt := now
    submittedAt := none, totalScore := none, maxScore := none, isGraded := false }

/-- Outcome of `initExam`. -/
inductive InitResult where
  | navigateHome
  | navigateResults
  | session (sub : Submission) (created : Bool) (remainingSeconds : Int)
deriving DecidableEq, Repr

/-- `initExam` of `TakeExam.tsx`, as observed by a student.  `examData`
is the (RLS-filtered) exam row; `existing` the student's submission row,
if any; `freshId` the id the database would assign to a newly inserted
submission.  The code checks `if (!examData) navigate('/student')` and
`if (sub?.submitted_at) navigate('/student/results')`; it performs no
check of `start_time`, `end_time` or the clock before creating the
submission and entering the session. -/
def initExam (examData : Option Exam) (existing : Option Submission)
    (freshId examId studentId : Nat) (now : Int) : InitResult :=
  match examData with
  | none => .navigateHome
  | some e =>
    match existing with
    | some sub =>
      if sub.submittedAt.isSome then .navigateResults
      else .session sub false (initRemaining e sub.startedAt now)
    | none =>
      let sub := newSubmission freshId examId studentId now
      .session sub true (initRemaining e sub.startedAt now)

/-- The status labels of `StudentExams.getStatus`. -/
inductive ExamStatus where
  | completed
  | upcoming
  | active
  | expired
deriving DecidableEq, Repr

/-- `StudentExams.getStatus`.  `submittedAt` is
`exam.submission?.submitted_at` flattened: `none` covers both a missing
submission and a NULL `submitted_at`. -/
def getStatus (e : Exam) (submittedAt : Option Int) (now : Int) : ExamStatus :=
  if submittedAt.isSome then .completed
  else if now < e.startTime then .upcoming
  else if now ≤ e.endTime then .active
  else .expired

/-- The `canTake` flag paired with each status in `getStatus`: only
`Active` renders the Start button. -/
def canTake (e : Exam) (submittedAt : Option Int) (now : Int) : Bool :=
  getStatus e submittedAt now == ExamStatus.active

/-! ### Answer store (`student_answers` upserts) -/

/-- Does a row carry the key of the UNIQUE constraint
`student_answers (submission_id, question_id)`? -/
def keyMatch (sid qid : Nat) (r : AnswerRow) : Bool :=
  r.submissionId == sid && r.questionId == qid

/-- How many rows of a table carry a given key. -/
def countKey (t : List AnswerRow) (sid qid : Nat) : Nat :=
  t.countP (keyMatch sid qid)

/-- The table invariant enforced by the UNIQUE constraint. -/
def uniqueKeys (t : List AnswerRow) : Prop :=
  ∀ sid qid, countKey t sid qid ≤ 1

/-- `saveAnswer` of `TakeExam.tsx`:
`upsert({ submission_id, question_id, answer }, { onConflict:
'submission_id,question_id' })`.  On conflict only `answer` is updated;
on insert the omitted columns take their declared defaults
(`is_correct` NULL, `marks_obtained` DEFAULT 0, `feedback` NULL). -/
def saveAnswerUpsert (t : List AnswerRow) (sid qid : Nat) (a : String) : List AnswerRow :=
  if t.any (keyMatch sid qid) then
    t.map (fun r => if keyMatch sid qid r then { r with answer := a } else r)
  else
    t ++ [{ submissionId := sid, questionId := qid, answer := a,
            isCorrect := none, marksObtained := some 0, feedback := none }]

/-- The stored answer text for a key (what a re-read of the table
observes). -/
def getAnswer (t : List AnswerRow) (sid qid : Nat) : Option String :=
  (t.find? (keyMatch sid qid)).map (fun r => r.answer)

/-- Conflict resolution of the finalize-time upsert: the provided
columns `answer`, `is_correct`, `marks_obtained` overwrite the existing
row's; `feedback` is kept. -/
def mergeRow (r row : AnswerRow) : AnswerRow :=
  { r with answer := row.answer, isCorrect := row.isCorrect,
           marksObtained := row.marksObtained }

/-- The finalize-time upsert of `handleSubmit`: it provides `answer`,
`is_correct` and `marks_obtained`, so on conflict those three columns
are overwritten and `feedback` is kept. -/
def finalizeUpsert (t : List AnswerRow) (row : AnswerRow) : List AnswerRow :=
  if t.any (keyMatch row.submissionId row.questionId) then
    t.map (fun r => if keyMatch row.submissionId row.questionId r then mergeRow r row else r)
  else t ++ [row]

/-- The sequence of upserts `handleSubmit`'s loop applies to the
`student_answers` table. -/
def applyFinalizeRows (t : List AnswerRow) (rows : List AnswerRow) : List AnswerRow :=
  rows.foldl finalizeUpsert t

/-! ### Grading view (`SubmissionDetail` of `AdminTeachers.tsx`) -/

/-- One entry of the `answers` state of `SubmissionDetail`: a
`student_answers` row joined with its question. -/
structure GAnswer where
  id : Nat
  questionId : Nat
  answer : String
  isCorrect : Option Bool
  marksObtained : Option Int
  feedback : Option String
  question : Question
deriving DecidableEq, Repr

/-- A `Partial<Answer>` as passed to `handleGradeUpdate`: each field is
present (`some v`, possibly `some none`) or absent (`none`). -/
structure GradeUpdate where
  isCorrect : Option (Option Bool) := none
  marksObtained : Option (Option Int) := none
  feedback : Option (Option String) := none
deriving DecidableEq, Repr

/-- The JS spread `{ ...a, ...updates }`: fields present in the update
replace the answer's, absent fields are kept. -/
def applyUpdate (a : GAnswer) (u : GradeUpdate) : GAnswer :=
  { a with
      isCorrect := u.isCorrect.getD a.isCorrect
      marksObtained := u.marksObtained.getD a.marksObtained
      feedback := u.feedback.getD a.feedback }

/-- `handleGradeUpdate(answerId, updates)`:
`answers.map(a => a.id === answerId ? { ...a, ...updates } : a)`.
The marks input feeds `{ marks_obtained: Number(e.target.value) }`
straight through — no clamping to `[0, question.marks]` happens here. -/
def handleGradeUpdate (answers : List GAnswer) (answerId : Nat) (u : GradeUpdate) :
    List GAnswer :=
  answers.map (fun a => if a.id == answerId then applyUpdate a u else a)

/-- `answers.reduce((sum, a) => sum + (a.marks_obtained || 0), 0)`. -/
def gradingTotal (answers : List GAnswer) : Int :=
  (answers.map (fun a => a.marksObtained.getD 0)).sum

/-- `saveGrading` of `SubmissionDetail`: writes each answer's
`is_correct` / `marks_obtained` / `feedback` back verbatim, then updates
the submission with `total_score := gradingTotal` and
`is_graded := true`.  No clamping of `marks_obtained` occurs. -/
def saveGrading (answers : List GAnswer) (sub : Submission) : List GAnswer × Submission :=
  (answers,
   { sub with totalScore := some (gradingTotal answers), isGraded := true })

/-! ### Publication gate (student read paths) -/

/-- What one card of `StudentResults` shows the student. -/
inductive ResultCard where
  | pending
  | shown (totalScore : Option Int) (maxScore : Option Int)
deriving DecidableEq, Repr

/-- The `StudentResults` card: scores are rendered iff
`result.exam?.results_published`; otherwise the badge "Results
Pending". -/
def studentResultCard (sub : Submission) (e : Exam) : ResultCard :=
  if e.resultsPublished then .shown sub.totalScore sub.maxScore else .pending

/-- The roles of `useAuth()`. -/
inductive Role where
  | admin
  | teacher
  | student
deriving DecidableEq, Repr

/-- The access check of `SubmissionDetail.fetchData`:
`if (role === 'student' && !subData.exam.results_published &&
!subData.is_graded) { … navigate('/student/results'); return; }` —
otherwise the full submission (scores included) is loaded and shown. -/
def detailAccessGranted (role : Role) (resultsPublished : Bool) (sub : Submission) : Bool :=
  !(role == Role.student && !resultsPublished && !sub.isGraded)

/-! ### Concrete fixtures used by witnesses and counterexamples -/

/-- An mcq question worth 2 marks. -/
def qMcq : Question :=
  { id := 1, questionType := .mcq, correctAnswer := "Paris", marks := 2, orderIndex := 0 }

/-- A second mcq question worth 3 marks. -/
def qMcq2 : Question :=
  { id := 2, questionType := .mcq, correctAnswer := "4", marks := 3, orderIndex := 1 }

/-- A free-text question worth 5 marks. -/
def qFree : Question :=
  { id := 3, questionType := .short_answer, correctAnswer := "essay", marks := 5, orderIndex := 2 }

/-- A published exam whose window is `[0, 600]`, results unpublished. -/
def exOpen : Exam :=
  { id := 1, durationMinutes := 60, startTime := 0, endTime := 600,
    isPublished := true, resultsPublished := false }

/-- A published exam whose window `[100, 200]` has not started yet at
`now = 50`. -/
def exFuture : Exam :=
  { id := 2, durationMinutes := 30, startTime := 100, endTime := 200,
    isPublished := true, resultsPublished := false }

/-- An unpublished (draft) exam. -/
def exDraft : Exam :=
  { id := 3, durationMinutes := 45, startTime := 0, endTime := 600,
    isPublished := false, resultsPublished := false }

/-- An in-progress submission. -/
def subFresh : Submission :=
  { id := 5, examId := 1, studentId := 9, startedAt := 0,
    submittedAt := none, totalScore := none, maxScore := none, isGraded := false }

/-- A submission already finalized at `t = 100`. -/
def subDone : Submission :=
  { id := 5, examId := 1, studentId := 9, startedAt := 0,
    submittedAt := some 100, totalScore := some 2, maxScore := some 5, isGraded := true }

/-- A graded submission of an exam whose results are not yet published. -/
def subGraded : Submission :=
  { id := 6, examId := 1, studentId := 9, startedAt := 0,
    submittedAt := some 50, totalScore := some 5, maxScore := some 6, isGraded := true }

/-- A grading-view answer to the free-text question `qFree` (marks 5). -/
def gaFree : GAnswer :=
  { id := 1, questionId := 3, answer := "text", isCorrect := none,
    marksObtained := some 0, feedback := none, question := qFree }

/-- The grading view after the teacher types 10 into the marks input of
`gaFree` — `handleGradeUpdate(1, { marks_obtained: Number('10') })`.
10 exceeds `qFree.marks = 5` and nothing clamps it. -/
def gaFreeOvergraded : List GAnswer :=
  handleGradeUpdate [gaFree] 1 { marksObtained := some (some 10) }

/-! ### Lemmas on the answer store -/

theorem applyFinalizeRows_nil (t : List AnswerRow) : applyFinalizeRows t [] = t := rfl

theorem applyFinalizeRows_cons (t : List AnswerRow) (row : AnswerRow) (rows : List AnswerRow) :
    applyFinalizeRows t (row :: rows) = applyFinalizeRows (finalizeUpsert t row) rows := rfl

theorem keyMatch_mergeRow (sid qid : Nat) (r row : AnswerRow) :
    keyMatch sid qid (mergeRow r row) = keyMatch sid qid r := rfl

theorem keyMatch_setAnswer (sid qid : Nat) (r : AnswerRow) (a : String) :
    keyMatch sid qid { r with answer := a } = keyMatch sid qid r := rfl

theorem keyMatch_self (row : AnswerRow) :
    keyMatch row.submissionId row.questionId row = true := by
  simp [keyMatch]

theorem keyMatch_of_ne (sid qid : Nat) (row : AnswerRow)
    (h : ¬(sid = row.submissionId ∧ qid = row.questionId)) :
    keyMatch sid qid row = false := by
  rw [Bool.eq_false_iff]
  intro hk
  simp only [keyMatch, Bool.and_eq_true, beq_iff_eq] at hk
  exact h ⟨hk.1.symm, hk.2.symm⟩

theorem countKey_map_update (t : List AnswerRow) (row : AnswerRow) (sid qid : Nat) :
    countKey
      (t.map (fun r => if keyMatch row.submissionId row.questionId r then mergeRow r row else r))
      sid qid = countKey t sid qid := by
  unfold countKey
  rw [List.countP_map]
  refine List.countP_congr ?_
  intro r _
  by_cases h : keyMatch row.submissionId row.questionId r = true <;>
    simp [Function.comp, h, keyMatch_mergeRow]

theorem countKey_finalizeUpsert_self (t : List AnswerRow) (row : AnswerRow)
    (hU : uniqueKeys t) :
    countKey (finalizeUpsert t row) row.submissionId row.questionId = 1 := by
  by_cases h : t.any (keyMatch row.submissionId row.questionId) = true
  · rw [finalizeUpsert, if_pos h, countKey_map_update]
    have h1 : 0 < countKey t row.submissionId row.questionId := by
      rw [countKey, List.countP_pos_iff]
      exact List.any_eq_true.mp h
    have h2 := hU row.submissionId row.questionId
    omega
  · rw [finalizeUpsert, if_neg h, countKey, List.countP_append]
    have h0 : t.countP (keyMatch row.submissionId row.questionId) = 0 := by
      rw [List.countP_eq_zero]
      exact List.any_eq_false.mp (Bool.eq_false_iff.mpr h)
    simp [h0, keyMatch_self]

theorem countKey_finalizeUpsert_other (t : List AnswerRow) (row : AnswerRow) (sid qid : Nat)
    (h : ¬(sid = row.submissionId ∧ qid = row.questionId)) :
    countKey (finalizeUpsert t row) sid qid = countKey t sid qid := by
  by_cases hA : t.any (keyMatch row.submissionId row.questionId) = true
  · rw [finalizeUpsert, if_pos hA, countKey_map_update]
  · rw [finalizeUpsert, if_neg hA, countKey, List.countP_append]
    simp [keyMatch_of_ne sid qid row h, countKey]

theorem uniqueKeys_finalizeUpsert (t : List AnswerRow) (row : AnswerRow)
    (hU : uniqueKeys t) : uniqueKeys (finalizeUpsert t row) := by
  intro sid qid
  by_cases h : sid = row.submissionId ∧ qid = row.questionId
  · obtain ⟨h1, h2⟩ := h
    subst h1; subst h2
    rw [countKey_finalizeUpsert_self t row hU]
  · rw [countKey_finalizeUpsert_other t row sid qid h]
    exact hU sid qid

theorem countKey_applyFinalizeRows_other (rows : List AnswerRow) :
    ∀ (t : List AnswerRow) (sid qid : Nat),
      (∀ r ∈ rows, ¬(sid = r.submissionId ∧ qid = r.questionId)) →
      countKey (applyFinalizeRows t rows) sid qid = countKey t sid qid := by
  induction rows with
  | nil => intro t sid qid _; rfl
  | cons r rs ih =>
    intro t sid qid h
    rw [applyFinalizeRows_cons,
        ih (finalizeUpsert t r) sid qid (fun r' hr' => h r' (List.mem_cons_of_mem _ hr'))]
    exact countKey_finalizeUpsert_other t r sid qid (h r (List.mem_cons_self _ _))

theorem countKey_applyFinalizeRows_mem (S : Nat) (rows : List AnswerRow) :
    ∀ (t : List AnswerRow), uniqueKeys t →
      (∀ r ∈ rows, r.submissionId = S) →
      (rows.map (fun r => r.questionId)).Nodup →
      ∀ r ∈ rows, countKey (applyFinalizeRows t rows) S r.questionId = 1 := by
  induction rows with
  | nil => intro t _ _ _ r hr; exact absurd hr (List.not_mem_nil r)
  | cons r rs ih =>
    intro t hU hS hN r' hr'
    rw [applyFinalizeRows_cons]
    have hU' := uniqueKeys_finalizeUpsert t r hU
    have hN' : (rs.map (fun x => x.questionId)).Nodup ∧
        r.questionId ∉ rs.map (fun x => x.questionId) := by
      rw [List.map_cons, List.nodup_cons] at hN
      exact ⟨hN.2, hN.1⟩
    rcases List.mem_cons.mp hr' with h | h
    · subst h
      rw [countKey_applyFinalizeRows_other rs (finalizeUpsert t r') S r'.questionId ?_]
      · have hS' : r'.submissionId = S := hS r' (List.mem_cons_self _ _)
        rw [← hS']
        exact countKey_finalizeUpsert_self t r' hU
      · intro rr hrr hcontra
        exact hN'.2 (hcontra.2 ▸ List.mem_map_of_mem (fun x => x.questionId) hrr)
    · exact ih (finalizeUpsert t r) hU'
        (fun x hx => hS x (List.mem_cons_of_mem _ hx)) hN'.1 r' h

theorem find?_append_of_none {p : AnswerRow → Bool} (t l : List AnswerRow)
    (h : ∀ r ∈ t, p r = false) :
    List.find? p (t ++ l) = List.find? p l := by
  induction t with
  | nil => rfl
  | cons r rs ih =>
    have hr : p r = false := h r (List.mem_cons_self _ _)
    simp only [List.cons_append, List.find?_cons, hr]
    exact ih (fun x hx => h x (List.mem_cons_of_mem _ hx))

theorem find?_map_setAnswer (sid qid : Nat) (a : String) :
    ∀ (t : List AnswerRow), t.any (keyMatch sid qid) = true →
      ((t.map (fun r => if keyMatch sid qid r then { r with answer := a } else r)).find?
          (keyMatch sid qid)).map (fun r => r.answer) = some a := by
  intro t
  induction t with
  | nil => intro h; simp at h
  | cons r rs ih =>
    intro h
    by_cases hk : keyMatch sid qid r = true
    · simp [List.find?_cons, hk, keyMatch_setAnswer]
    · have h' : rs.any (keyMatch sid qid) = true := by
        rcases List.any_eq_true.mp h with ⟨x, hx, hpx⟩
        rcases List.mem_cons.mp hx with rfl | hx'
        · exact absurd hpx (by simp [hk])
        · exact List.any_eq_true.mpr ⟨x, hx', hpx⟩
      simpa [List.find?_cons, hk] using ih h'

theorem any_map_setAnswer (sid qid : Nat) (a : String) (t : List AnswerRow)
    (h : t.any (keyMatch sid qid) = true) :
    (t.map (fun r => if keyMatch sid qid r then { r with answer := a } else r)).any
      (keyMatch sid qid) = true := by
  rcases List.any_eq_true.mp h with ⟨r, hr, hk⟩
  refine List.any_eq_true.mpr ⟨if keyMatch sid qid r then { r with answer := a } else r,
    List.mem_map_of_mem _ hr, ?_⟩
  by_cases hkk : keyMatch sid qid r = true
  · rw [if_pos hkk, keyMatch_setAnswer]; exact hkk
  · exact absurd hk hkk

theorem saveAnswerUpsert_idem_aux (t : List AnswerRow) (sid qid : Nat) (a : String) :
    saveAnswerUpsert (saveAnswerUpsert t sid qid a) sid qid a =
      saveAnswerUpsert t sid qid a := by
  by_cases h : t.any (keyMatch sid qid) = true
  · have e1 : saveAnswerUpsert t sid qid a =
        t.map (fun r => if keyMatch sid qid r then { r with answer := a } else r) := by
      rw [saveAnswerUpsert, if_pos h]
    rw [e1, saveAnswerUpsert, if_pos (any_map_setAnswer sid qid a t h), List.map_map]
    refine List.map_congr_left ?_
    intro r _
    by_cases hk : keyMatch sid qid r = true
    · simp [Function.comp, hk, keyMatch_setAnswer]
    · simp [Function.comp, hk]
  · have hall : ∀ r ∈ t, ¬ keyMatch sid qid r = true :=
      List.any_eq_false.mp (Bool.eq_false_iff.mpr h)
    have hrow : keyMatch sid qid
        ({ submissionId := sid, questionId := qid, answer := a,
           isCorrect := none, marksObtained := some 0, feedback := none } : AnswerRow) = true := by
      simp [keyMatch]
    have e1 : saveAnswerUpsert t sid qid a =
        t ++ [{ submissionId := sid, questionId := qid, answer := a,
                isCorrect := none, marksObtained := some 0, feedback := none }] := by
      rw [saveAnswerUpsert, if_neg h]
    rw [e1, saveAnswerUpsert]
    rw [if_pos (by simp [List.any_append, hrow])]
    rw [List.map_append]
    have h1 : t.map (fun r => if keyMatch sid qid r then { r with answer := a } else r) = t := by
      conv_rhs => rw [← List.map_id t]
      refine List.map_congr_left ?_
      intro r hr
      simp [if_neg (hall r hr)]
    rw [h1]
    simp [hrow]

theorem getAnswer_saveAnswerUpsert_aux (t : List AnswerRow) (sid qid : Nat) (a : String) :
    getAnswer (saveAnswerUpsert t sid qid a) sid qid = some a := by
  by_cases h : t.any (keyMatch sid qid) = true
  · rw [saveAnswerUpsert, if_pos h, getAnswer]
    exact find?_map_setAnswer sid qid a t h
  · rw [saveAnswerUpsert, if_neg h, getAnswer,
        find?_append_of_none _ _ (fun r hr =>
          Bool.eq_false_iff.mpr ((List.any_eq_false.mp (Bool.eq_false_iff.mpr h)) r hr))]
    simp [List.find?_cons, keyMatch]

/-! ### Lemmas on grading -/

theorem isCorrectAns_non_mcq (q : Question) (ans : String)
    (h : q.questionType ≠ QType.mcq) : isCorrectAns q ans = false := by
  simp only [isCorrectAns, Bool.and_eq_false_iff]
  left
  simpa using h

theorem finalTotalScore_filter_mcq (qs : List Question) (ans : List (Nat × String)) :
    finalTotalScore qs ans =
      finalTotalScore (qs.filter (fun q => q.questionType == QType.mcq)) ans := by
  induction qs with
  | nil => rfl
  | cons q rest ih =>
    by_cases h : (q.questionType == QType.mcq) = true
    · simp only [finalTotalScore, List.filter_cons, h, if_true, List.map_cons, List.sum_cons]
      simp only [finalTotalScore] at ih
      rw [ih]
    · have hq : q.questionType ≠ QType.mcq := by simpa using h
      simp only [finalTotalScore, List.filter_cons, h, if_false, List.map_cons, List.sum_cons,
        isCorrectAns_non_mcq q _ hq]
      simp only [finalTotalScore] at ih
      rw [ih]
      simp

theorem applyUpdate_idem (a : GAnswer) (u : GradeUpdate) :
    applyUpdate (applyUpdate a u) u = applyUpdate a u := by
  rcases u with ⟨ic, mo, fb⟩
  cases ic <;> cases mo <;> cases fb <;> rfl

theorem applyUpdate_id_eq (a : GAnswer) (u : GradeUpdate) :
    (applyUpdate a u).id = a.id := rfl

theorem handleGradeUpdate_idem (answers : List GAnswer) (aid : Nat) (u : GradeUpdate) :
    handleGradeUpdate (handleGradeUpdate answers aid u) aid u =
      handleGradeUpdate answers aid u := by
  simp only [handleGradeUpdate, List.map_map]
  refine List.map_congr_left ?_
  intro a _
  by_cases h : (a.id == aid) = true
  · simp [Function.comp, h, applyUpdate_id_eq, applyUpdate_idem]
  · simp [Function.comp, h]

/-! ### Claim C5 -/

/-- Claim C5: for every objective (mcq) question graded at finalize, the
stored row satisfies `isCorrect = normalize(answer) == normalize(correctAnswer)`
with normalize = case-fold then trim, and `marksObtained = marks` when correct
and `0` otherwise. -/
theorem mcq_grading_normalized_match (questions : List Question)
    (answers : List (Nat × String)) (sub : Submission) (now : Int) (q : Question)
    (hq : q ∈ questions) (hmcq : q.questionType = QType.mcq) :
    ∃ row ∈ (handleSubmit false questions answers sub now).2,
      row.submissionId = sub.id ∧ row.questionId = q.id ∧
      row.answer = answerOf answers q.id ∧
      row.isCorrect = some (jsNormalize row.answer == jsNormalize q.correctAnswer) ∧
      row.marksObtained =
        some (if jsNormalize row.answer == jsNormalize q.correctAnswer
              then q.marks else 0) := by
  refine ⟨gradeRow sub.id q (answerOf answers q.id), ?_, rfl, rfl, rfl, ?_, ?_⟩
  · simp only [handleSubmit, Bool.false_eq_true, if_false]
    exact List.mem_map_of_mem _ hq
  · simp [gradeRow, isCorrectAns, hmcq]
  · simp [gradeRow, isCorrectAns, hmcq]

/-- Witness for C5: the theorem applied to a one-question exam where the
student's saved text "  pArIs" matches "Paris" after normalisation. -/
theorem mcq_grading_normalized_match_witness :
    ∃ row ∈ (handleSubmit false [qMcq] [(1, "  pArIs")] subFresh 9).2,
      row.submissionId = subFresh.id ∧ row.questionId = qMcq.id ∧
      row.answer = answerOf [(1, "  pArIs")] 1 ∧
      row.isCorrect = some (jsNormalize row.answer == jsNormalize qMcq.correctAnswer) ∧
      row.marksObtained =
        some (if jsNormalize row.answer == jsNormalize qMcq.correctAnswer
              then qMcq.marks else 0) :=
  mcq_grading_normalized_match [qMcq] [(1, "  pArIs")] subFresh 9 qMcq
    (by decide) (by decide)

/-! ### Claim C6 -/

/-- Claim C6 counterexample: at finalize a `short_answer` question's row
records `marks_obtained = NULL`, not 0 — `handleSubmit` writes
`marks_obtained: q.question_type === 'mcq' ? … : null`. -/
theorem freetext_marks_recorded_null :
    (handleSubmit false [qFree] [(3, "my essay")] subFresh 9).2.map
        (fun r => r.marksObtained) = [none] ∧
    (none : Option Int) ≠ some 0 := by
  decide

/-- Claim C6 amended: for every free-text (`short_answer`) question the
Auto-Grader at finalize records `isCorrect = null` and
`marksObtained = null` (not 0), and such answers contribute nothing to
`totalScore` until manually graded — the finalize total equals the total
over the mcq questions alone. -/
theorem freetext_grading_defers (questions : List Question)
    (answers : List (Nat × String)) (sub : Submission) (now : Int) (q : Question)
    (hq : q ∈ questions) (hsa : q.questionType = QType.short_answer) :
    (∃ row ∈ (handleSubmit false questions answers sub now).2,
       row.questionId = q.id ∧ row.isCorrect = none ∧ row.marksObtained = none) ∧
    (handleSubmit false questions answers sub now).1.totalScore =
      some (finalTotalScore (questions.filter (fun q' => q'.questionType == QType.mcq))
              answers) := by
  constructor
  · refine ⟨gradeRow sub.id q (answerOf answers q.id), ?_, rfl, ?_, ?_⟩
    · simp only [handleSubmit, Bool.false_eq_true, if_false]
      exact List.mem_map_of_mem _ hq
    · simp [gradeRow, hsa]
    · simp [gradeRow, hsa]
  · simp only [handleSubmit, Bool.false_eq_true, if_false]
    exact congrArg some (finalTotalScore_filter_mcq questions answers)

/-- Witness for the amended C6 at a concrete two-question exam. -/
theorem freetext_grading_defers_witness :
    (∃ row ∈ (handleSubmit false [qMcq, qFree] [(3, "my essay")] subFresh 9).2,
       row.questionId = qFree.id ∧ row.isCorrect = none ∧ row.marksObtained = none) ∧
    (handleSubmit false [qMcq, qFree] [(3, "my essay")] subFresh 9).1.totalScore =
      some (finalTotalScore
              ([qMcq, qFree].filter (fun q' => q'.questionType == QType.mcq))
              [(3, "my essay")]) :=
  freetext_grading_defers [qMcq, qFree] [(3, "my essay")] subFresh 9 qFree
    (by decide) (by decide)

/-! ### Claim C7 -/

/-- Claim C7: finalize sets the submission's `isGraded` to true iff every
question of the exam is mcq, and for an all-mcq exam `totalScore` equals
the sum of the marks of the exactly-matching answers. -/
theorem isGraded_iff_all_mcq (questions : List Question)
    (answers : List (Nat × String)) (sub : Submission) (now : Int) :
    ((handleSubmit false questions answers sub now).1.isGraded = true ↔
      ∀ q ∈ questions, q.questionType = QType.mcq) ∧
    ((∀ q ∈ questions, q.questionType = QType.mcq) →
      (handleSubmit false questions answers sub now).1.totalScore =
        some ((questions.map (fun q =>
          if jsNormalize (answerOf answers q.id) == jsNormalize q.correctAnswer
          then q.marks else 0)).sum)) := by
  constructor
  · simp [handleSubmit, allMcq, List.all_eq_true]
  · intro h
    simp only [handleSubmit, Bool.false_eq_true, if_false]
    refine congrArg some ?_
    refine congrArg List.sum (List.map_congr_left ?_)
    intro q hq
    simp [isCorrectAns, h q hq]

/-- Witness for C7: a two-question all-mcq exam, answered "paris " (match
after normalisation) and "5" (no match). -/
theorem isGraded_iff_all_mcq_witness :
    (handleSubmit false [qMcq, qMcq2] [(1, "paris "), (2, "5")] subFresh 9).1.totalScore =
      some (([qMcq, qMcq2].map (fun q =>
        if jsNormalize (answerOf [(1, "paris "), (2, "5")] q.id) == jsNormalize q.correctAnswer
        then q.marks else 0)).sum) :=
  (isGraded_iff_all_mcq [qMcq, qMcq2] [(1, "paris "), (2, "5")] subFresh 9).2 (by decide)

/-! ### Claim C1 -/

/-- Claim C1 counterexample: in `SubmissionDetail.fetchData` a student is
granted the full submission (scores included) for a graded submission of
an exam whose results are NOT yet published — the check only denies when
both `results_published` and `is_graded` are false. -/
theorem publication_gate_detail_leak :
    detailAccessGranted Role.student exOpen.resultsPublished subGraded = true ∧
    exOpen.resultsPublished = false ∧ subGraded.isGraded = true ∧
    subGraded.totalScore = some 5 := by
  decide

/-- Claim C1 amended: in the results list a student observes
`totalScore`/`maxScore` iff `exam.resultsPublished` (otherwise the card
shows "Results Pending"); in the submission detail view a student is
granted full detail iff `resultsPublished OR isGraded` — so a graded
submission is readable there before publication; a teacher or admin is
always granted full detail. -/
theorem publication_gate_read_paths (sub : Submission) (e : Exam) (role : Role) :
    (studentResultCard sub e = ResultCard.shown sub.totalScore sub.maxScore ↔
      e.resultsPublished = true) ∧
    (studentResultCard sub e = ResultCard.pending ↔ e.resultsPublished = false) ∧
    (detailAccessGranted Role.student e.resultsPublished sub = true ↔
      (e.resultsPublished = true ∨ sub.isGraded = true)) ∧
    (role ≠ Role.student → detailAccessGranted role e.resultsPublished sub = true) := by
  refine ⟨?_, ?_, ?_, ?_⟩
  · cases h : e.resultsPublished <;> simp [studentResultCard, h]
  · cases h : e.resultsPublished <;> simp [studentResultCard, h]
  · cases hp : e.resultsPublished <;> cases hg : sub.isGraded <;>
      simp [detailAccessGranted, hp, hg]
  · intro h
    cases role with
    | student => exact absurd rfl h
    | admin =>
      simp [detailAccessGranted, (by decide : (Role.admin == Role.student) = false)]
    | teacher =>
      simp [detailAccessGranted, (by decide : (Role.teacher == Role.student) = false)]

/-- Witness for the amended C1 at the graded-but-unpublished fixture. -/
theorem publication_gate_read_paths_witness :
    studentResultCard subGraded exOpen = ResultCard.pending ∧
    detailAccessGranted Role.student exOpen.resultsPublished subGraded = true ∧
    detailAccessGranted Role.teacher exOpen.resultsPublished subGraded = true := by
  obtain ⟨h1, h2, h3, h4⟩ := publication_gate_read_paths subGraded exOpen Role.teacher
  exact ⟨h2.mpr rfl, h3.mpr (Or.inr rfl), h4 (by decide)⟩

/-! ### Claim C2 -/

/-- Claim C2 counterexample: running finalize on a submission whose
`submittedAt` is already set does not leave the state unchanged and no
`AlreadySubmitted` is observed — the update is unconditional, so
`submittedAt` is overwritten. -/
theorem finalize_overwrites_submitted :
    (handleSubmit false [qMcq] [] subDone 200).1 ≠ subDone ∧
    (handleSubmit false [qMcq] [] subDone 200).1.submittedAt = some 200 ∧
    subDone.submittedAt = some 100 := by
  decide

/-- Claim C2 amended: the only finalize guards are client-side —
`handleSubmit` is a no-op while the component's `submitting` flag is set,
and `initExam`'s resume path routes an already-submitted student to the
results page; the storage update carries no `submittedAt IS NULL`
condition, so a finalize run with the flag clear always overwrites
`submittedAt` with the current time, even when it was already set. -/
theorem finalize_guards_client_side (questions : List Question)
    (answers : List (Nat × String)) (sub : Submission) (now : Int) :
    handleSubmit true questions answers sub now = (sub, []) ∧
    (∀ (e : Exam) (fid eid sid : Nat) (t : Int), sub.submittedAt = some t →
      initExam (some e) (some sub) fid eid sid now = InitResult.navigateResults) ∧
    (handleSubmit false questions answers sub now).1.submittedAt = some now := by
  refine ⟨rfl, ?_, by simp [handleSubmit]⟩
  intro e fid eid sid t ht
  simp [initExam, ht]

/-- Witness for the amended C2 at the already-submitted fixture. -/
theorem finalize_guards_client_side_witness :
    handleSubmit true [qMcq] [] subDone 7 = (subDone, []) ∧
    initExam (some exOpen) (some subDone) 8 1 9 7 = InitResult.navigateResults ∧
    (handleSubmit false [qMcq] [] subDone 7).1.submittedAt = some 7 := by
  obtain ⟨h1, h2, h3⟩ := finalize_guards_client_side [qMcq] [] subDone 7
  exact ⟨h1, h2 exOpen 8 1 9 100 rfl, h3⟩

/-! ### Claim C3 -/

/-- Claim C3 counterexample: with a 60-minute exam started at `0` but a
global `endTime` of `600`, the code reports 3600 remaining seconds while
the claimed formula caps at 600 — no `endTime` cap exists in `initExam`. -/
theorem remaining_time_not_capped :
    initRemaining exOpen 0 0 = 3600 ∧ specRemaining exOpen 0 0 = 600 ∧
    initRemaining exOpen 0 0 ≠ specRemaining exOpen 0 0 ∧
    exOpen.endTime - 0 < initRemaining exOpen 0 0 := by
  decide

/-- Claim C3 amended: the remaining time reported on start or resume is
`max(0, durationMinutes*60 − (now − startedAt))` with NO cap by the
exam's `endTime`; whenever `endTime − now` is below that value the
reported remaining time exceeds `endTime − now`, so the session timer
can outlive `endTime`. -/
theorem remaining_time_formula (e : Exam) (startedAt now : Int) :
    initRemaining e startedAt now = max 0 (e.durationMinutes * 60 - (now - startedAt)) ∧
    (e.endTime - now < max 0 (e.durationMinutes * 60 - (now - startedAt)) →
      e.endTime - now < initRemaining e startedAt now) ∧
    (∀ (sub : Submission) (fid eid sid : Nat), sub.submittedAt = none →
      initExam (some e) (some sub) fid eid sid now =
        InitResult.session sub false (initRemaining e sub.startedAt now)) := by
  refine ⟨rfl, fun h => h, ?_⟩
  intro sub fid eid sid h
  simp [initExam, h]

/-- Witness for the amended C3 at the fixture exam. -/
theorem remaining_time_formula_witness :
    initRemaining exOpen 0 0 = max 0 (exOpen.durationMinutes * 60 - (0 - 0)) ∧
    exOpen.endTime - 0 < initRemaining exOpen 0 0 ∧
    initExam (some exOpen) (some subFresh) 8 1 9 0 =
      InitResult.session subFresh false (initRemaining exOpen subFresh.startedAt 0) := by
  obtain ⟨h1, h2, h3⟩ := remaining_time_formula exOpen 0 0
  exact ⟨h1, h2 (by decide), h3 subFresh 8 1 9 rfl⟩

/-! ### Claim C4 -/

/-- Claim C4 counterexample: for a published exam whose window has not
started (`now = 50 < startTime = 100`), `initExam` enters a session and
creates a submission instead of failing with `NotAvailable`. -/
theorem start_before_window_creates_submission :
    initExam (visibleExamForStudent exFuture) none 7 2 9 50 =
      InitResult.session (newSubmission 7 2 9 50) true (initRemaining exFuture 50 50) ∧
    (50 : Int) < exFuture.startTime ∧ exFuture.isPublished = true := by
  decide

/-- Claim C4 amended: only the unpublished case is blocked at session
entry (row-level security hides the exam, so `initExam` navigates away
and creates nothing); the `startTime`/`endTime` window is enforced only
by the exam list's `getStatus`, whose Start button shows iff
`startTime ≤ now ≤ endTime` and the exam is unsubmitted, while `initExam`
itself enters a session and creates the submission regardless of the
time window. -/
theorem availability_checks (e : Exam) (existing : Option Submission)
    (fid eid sid : Nat) (now : Int) :
    (e.isPublished = false →
      initExam (visibleExamForStudent e) existing fid eid sid now =
        InitResult.navigateHome) ∧
    (canTake e none now = true ↔ e.startTime ≤ now ∧ now ≤ e.endTime) ∧
    (∀ t : Int, canTake e (some t) now = false) ∧
    (e.isPublished = true →
      initExam (visibleExamForStudent e) none fid eid sid now =
        InitResult.session (newSubmission fid eid sid now) true
          (initRemaining e now now)) := by
  refine ⟨?_, ?_, ?_, ?_⟩
  · intro h
    simp [visibleExamForStudent, h, initExam]
  · by_cases h1 : now < e.startTime
    · simp [canTake, getStatus, h1]
    · by_cases h2 : now ≤ e.endTime
      · simp [canTake, getStatus, h1, h2]
        omega
      · simp [canTake, getStatus, h1, h2]
  · intro t
    simp [canTake, getStatus]
  · intro h
    simp [visibleExamForStudent, h, initExam, newSubmission]

/-- Witness for the amended C4: a draft exam is blocked; the published
`exFuture` at `now = 150` (inside its window) is startable; a submitted
exam is not; and `initExam` creates the submission. -/
theorem availability_checks_witness :
    initExam (visibleExamForStudent exDraft) none 7 3 9 50 = InitResult.navigateHome ∧
    canTake exFuture none 150 = true ∧
    canTake exFuture (some 1) 150 = false ∧
    initExam (visibleExamForStudent exFuture) none 7 2 9 150 =
      InitResult.session (newSubmission 7 2 9 150) true (initRemaining exFuture 150 150) := by
  refine ⟨(availability_checks exDraft none 7 3 9 50).1 rfl,
    ((availability_checks exFuture none 7 2 9 150).2.1).mpr (by decide),
    (availability_checks exFuture none 7 2 9 150).2.2.1 1,
    (availability_checks exFuture none 7 2 9 150).2.2.2 rfl⟩

/-! ### Claim C8 -/

/-- Claim C8 counterexample: the teacher types 10 marks into the input of
an answer whose question is worth 5; `handleGradeUpdate` and
`saveGrading` store 10 verbatim and `totalScore` becomes 10 — nothing
clamps `marksObtained` into `[0, question.marks]`. -/
theorem manual_marks_not_clamped :
    (saveGrading gaFreeOvergraded subGraded).1.map (fun a => a.marksObtained) =
      [some 10] ∧
    gaFreeOvergraded.map (fun a => a.question.marks) = [5] ∧
    (saveGrading gaFreeOvergraded subGraded).2.totalScore = some 10 ∧
    ¬ ((10 : Int) ≤ 5) := by
  decide

/-- Claim C8 amended: `saveGrading` writes each answer's `marksObtained`
back verbatim — without clamping to `[0, question.marks]` — then
recomputes `totalScore = Σ (marksObtained ?? 0)` over all answers of the
submission and sets `isGraded = true`; reapplying the same updates (both
`handleGradeUpdate` and `saveGrading`) produces the same final state. -/
theorem manual_grading_recompute (answers : List GAnswer) (sub : Submission) :
    (saveGrading answers sub).1 = answers ∧
    (saveGrading answers sub).2.totalScore = some (gradingTotal answers) ∧
    (saveGrading answers sub).2.isGraded = true ∧
    saveGrading (saveGrading answers sub).1 (saveGrading answers sub).2 =
      saveGrading answers sub ∧
    (∀ (aid : Nat) (u : GradeUpdate),
      handleGradeUpdate (handleGradeUpdate answers aid u) aid u =
        handleGradeUpdate answers aid u) :=
  ⟨rfl, rfl, rfl, rfl, fun aid u => handleGradeUpdate_idem answers aid u⟩

/-! ### Claim C9 -/

/-- Claim C9: `saveAnswer` has idempotent upsert semantics keyed on
`(submission_id, question_id)`: a repeated call with the same text leaves
the table exactly as one call does, and the stored answer after an upsert
is the text just written (last accepted write wins). -/
theorem saveAnswer_upsert_idempotent (t : List AnswerRow) (sid qid : Nat) (a : String) :
    saveAnswerUpsert (saveAnswerUpsert t sid qid a) sid qid a =
      saveAnswerUpsert t sid qid a ∧
    getAnswer (saveAnswerUpsert t sid qid a) sid qid = some a :=
  ⟨saveAnswerUpsert_idem_aux t sid qid a, getAnswer_saveAnswerUpsert_aux t sid qid a⟩

/-! ### Claim C10 -/

/-- Claim C10: finalize upserts an answer row for every question of the
exam, substituting `''` for unanswered questions, so afterwards every
question has exactly one row for that submission (given the table's
UNIQUE key invariant and distinct question ids); an unanswered mcq
question whose correct answer does not normalise to the empty string is
recorded as incorrect with 0 marks rather than being absent. -/
theorem finalize_covers_all_questions (table : List AnswerRow)
    (questions : List Question) (answers : List (Nat × String))
    (sub : Submission) (now : Int)
    (hU : uniqueKeys table) (hN : (questions.map (fun q => q.id)).Nodup) :
    (∀ q ∈ questions,
      countKey (applyFinalizeRows table (handleSubmit false questions answers sub now).2)
        sub.id q.id = 1) ∧
    (∀ q ∈ questions, answers.lookup q.id = none →
      gradeRow sub.id q "" ∈ (handleSubmit false questions answers sub now).2 ∧
      (gradeRow sub.id q "").answer = "" ∧
      (q.questionType = QType.mcq → jsNormalize q.correctAnswer ≠ "" →
        (gradeRow sub.id q "").isCorrect = some false ∧
        (gradeRow sub.id q "").marksObtained = some 0)) := by
  have hrows : (handleSubmit false questions answers sub now).2 =
      questions.map (fun q => gradeRow sub.id q (answerOf answers q.id)) := by
    simp [handleSubmit]
  constructor
  · intro q hq
    rw [hrows]
    have hS : ∀ r ∈ questions.map (fun q => gradeRow sub.id q (answerOf answers q.id)),
        r.submissionId = sub.id := by
      intro r hr
      rcases List.mem_map.mp hr with ⟨q', _, rfl⟩
      rfl
    have hN2 : ((questions.map (fun q => gradeRow sub.id q (answerOf answers q.id))).map
        (fun r => r.questionId)).Nodup := by
      rw [List.map_map]
      exact hN
    exact countKey_applyFinalizeRows_mem sub.id
      (questions.map (fun q => gradeRow sub.id q (answerOf answers q.id))) table hU hS hN2
      (gradeRow sub.id q (answerOf answers q.id)) (List.mem_map_of_mem _ hq)
  · intro q hq hnone
    have hAns : answerOf answers q.id = "" := by simp [answerOf, hnone]
    refine ⟨?_, rfl, ?_⟩
    · rw [hrows, ← hAns]
      exact List.mem_map_of_mem _ hq
    · intro hmcq hne
      have hfalse : isCorrectAns q "" = false := by
        simp only [isCorrectAns, hmcq, beq_self_eq_true, Bool.true_and]
        rw [(by decide : jsNormalize "" = "")]
        exact beq_eq_false_iff_ne.mpr (fun hcontra => hne hcontra.symm)
      constructor
      · simp [gradeRow, hmcq, hfalse]
      · simp [gradeRow, hmcq, hfalse]

/-- Witness for C10: an empty table, a two-question exam and no answers
at all — each question ends with exactly one row, and the unanswered mcq
is recorded incorrect. -/
theorem finalize_covers_all_questions_witness :
    countKey (applyFinalizeRows [] (handleSubmit false [qMcq, qFree] [] subFresh 9).2)
      subFresh.id qMcq.id = 1 ∧
    (gradeRow subFresh.id qMcq "").isCorrect = some false ∧
    (gradeRow subFresh.id qMcq "").marksObtained = some 0 := by
  obtain ⟨h1, h2⟩ := finalize_covers_all_questions [] [qMcq, qFree] [] subFresh 9
    (fun sid qid => by simp [countKey]) (by decide)
  obtain ⟨-, -, h3⟩ := h2 qMcq (by decide) (by decide)
  exact ⟨h1 qMcq (by decide), (h3 rfl (by decide)).1, (h3 rfl (by decide)).2⟩

end ExamAce
